import Mathlib

/-!
# ticktick-cli — verification of the core spec claims

Shallow embedding of the core of the ticktick-cli repository:
token lifecycle (`lib/core.js`), short-ID resolution and the
resolution-aware task operations (`lib/tasks.js`).

JavaScript strings are embedded as `List Char` (`Str`); JS string
operations `slice(0, 8)`, `length`, `startsWith`, `includes`,
`toLowerCase`, `trim`, `split(',')` become `take`, `length`,
`isPrefixOf`, `isInfixOf`, `map Char.toLower`, whitespace trimming and
`splitOn`.  JS truthiness of a string is emptiness (`s ≠ []`); a
possibly-`undefined`/`null` value is an `Option`.  Timestamps
(`Date.now()`, `expiresAt`, parsed `dueDate` values) are `Int`
milliseconds; a nullable/absent `dueDate` is `Option Int`.  Fallible
functions return `Except`.  The remote API is modelled by an explicit
environment: a project listing plus a per-project task-data map where
`none` stands for a failed fetch (a thrown and caught `apiRequest`).
-/

deriving instance DecidableEq for Except

namespace TickTickCLI

/-- JS strings as lists of characters (JS code units). -/
abbrev Str := List Char

/-- Turn a Lean string literal into the embedded string type. -/
def strL (s : String) : Str := s.toList

/-- JS truthiness of a (possibly absent) string: present and non-empty. -/
def truthy : Option Str → Bool
  | none => false
  | some s => s ≠ []

/-- JS `String.prototype.toLowerCase`. -/
def lowerStr (s : Str) : Str := s.map Char.toLower

/-- JS `String.prototype.trim`: drop leading and trailing whitespace. -/
def trimStr (s : Str) : Str :=
  ((s.dropWhile Char.isWhitespace).reverse.dropWhile Char.isWhitespace).reverse

/-- The persisted OAuth token bundle (`tokens.json`).  `accessToken` and
`refreshToken` are `Option` because a parsed JSON object may lack the
fields (JS `undefined`). -/
structure TokenSet where
  accessToken : Option Str
  refreshToken : Option Str
  expiresAt : Int
  deriving Repr, DecidableEq

/-- Function `isTokenExpired` from `lib/core.js`:
`Date.now() >= tokens.expiresAt - 60000`, with the current time passed
explicitly. -/
def isTokenExpired (now : Int) (tokens : TokenSet) : Bool :=
  now ≥ tokens.expiresAt - 60000

/-- Function `shortId` from `lib/core.js`: `if (!id) return ''; return id.slice(0, 8)`. -/
def shortId (id : Str) : Str :=
  if id = [] then [] else id.take 8

/-- Function `isShortId` from `lib/core.js`: `return id && id.length <= 8`.
For an empty string the JS function returns the falsy empty string
itself; every caller uses the result as a condition, so the observable
boolean value is `false` on the empty string and `id.length <= 8`
otherwise. -/
def isShortId (id : Str) : Bool :=
  if id = [] then false else id.length ≤ 8

/-- Error taxonomy for the embedded operations. -/
inductive TTError where
  | inboxNotFound
  | validationError
  | invalidReminder
  | invalidPriority
  | notAuthenticated
  | refreshFailed
  deriving Repr, DecidableEq

/-- Function `getValidAccessToken` from `lib/core.js`, with the loaded token
file and the outcome of a potential refresh passed explicitly.
`tokens = none` is exactly `loadTokens()` returning `null` (missing,
empty or corrupted token file).  The function throws `Not
authenticated` only in that case; otherwise it refreshes when expired
and returns `tokens.accessToken` (which may be the absent value) when
not. -/
def getValidAccessToken (now : Int) (tokens : Option TokenSet)
    (refreshResult : Except TTError TokenSet) : Except TTError (Option Str) :=
  match tokens with
  | none => Except.error TTError.notAuthenticated
  | some t =>
    if isTokenExpired now t then
      match refreshResult with
      | Except.ok nt => Except.ok nt.accessToken
      | Except.error e => Except.error e
    else
      Except.ok t.accessToken

/-- A project as returned by `GET /project`. -/
structure Project where
  id : Str
  name : Str
  deriving Repr, DecidableEq

/-- A task as returned inside `GET /project/{id}/data`.  `content` and
`tags` may be absent (`undefined`); `dueDate` is the parsed timestamp
of the ISO string, `none` when the field is null/absent/empty (all
falsy in JS). -/
structure Task where
  id : Str
  projectId : Str
  title : Str
  content : Option Str
  dueDate : Option Int
  priority : Int
  tags : Option (List Str)
  status : Int
  deriving Repr, DecidableEq

/-- The remote API as seen by one invocation: the project listing
returned by `GET /project`, and for each project id the task list
returned by `GET /project/{id}/data` — `none` models a fetch that
throws (`apiRequest` rejecting). -/
structure Env where
  projects : List Project
  data : Str → Option (List Task)

/-- Function `resolveProjectId` from `lib/tasks.js`.  Mirrors the source: a
non-empty input longer than 8 characters is returned as-is with no
fetch; the empty input resolves to the first listing entry whose id
starts with `"inbox"` (error `inboxNotFound` when none); otherwise the
first entry with the input as an id prefix wins, and a miss returns
the input unchanged. -/
def resolveProjectId (projects : List Project) (projectId : Str) :
    Except TTError Str :=
  if projectId ≠ [] ∧ isShortId projectId = false then
    Except.ok projectId
  else if projectId = [] then
    match projects.find? (fun p => (strL "inbox").isPrefixOf p.id) with
    | some p => Except.ok p.id
    | none => Except.error TTError.inboxNotFound
  else
    match projects.find? (fun p => projectId.isPrefixOf p.id) with
    | some p => Except.ok p.id
    | none => Except.ok projectId

/-- The all-projects scan in `resolveTaskId`: walk the listing in
order; skip projects whose data fetch fails; return the first task
whose id has `taskId` as a prefix. -/
def findTaskAcross (data : Str → Option (List Task)) (taskId : Str) :
    List Project → Option Str
  | [] => none
  | p :: ps =>
    match data p.id with
    | some ts =>
      match ts.find? (fun t => taskId.isPrefixOf t.id) with
      | some t => some t.id
      | none => findTaskAcross data taskId ps
    | none => findTaskAcross data taskId ps

/-- The project-hint attempt of `resolveTaskId`: with a truthy hint,
fetch that project's data and prefix-match; `none` both on fetch
failure and on a miss (the source falls through in both cases). -/
def resolveTaskIdHint (data : Str → Option (List Task)) (taskId : Str) :
    Option Str → Option Str
  | some pid =>
    if pid = [] then none
    else
      match data pid with
      | some ts => (ts.find? (fun t => taskId.isPrefixOf t.id)).map (fun t => t.id)
      | none => none
  | none => none

/-- Function `resolveTaskId` from `lib/tasks.js`.  A non-short input (including
the empty string, whose `isShortId` is falsy) is returned as-is.  With
a truthy project hint, that project's data is tried first, falling
through on fetch failure or miss; then every project is scanned in
order; an overall miss returns the input unchanged. -/
def resolveTaskId (env : Env) (taskId : Str) (projectId : Option Str) : Str :=
  if isShortId taskId = false then taskId
  else
    match resolveTaskIdHint env.data taskId projectId with
    | some fullId => fullId
    | none => (findTaskAcross env.data taskId env.projects).getD taskId

/-- Function `formatPriority` from `lib/core.js`: 0/1/3/5 map to the four
levels, anything else to `none`. -/
def formatPriority (p : Int) : Str :=
  if p = 0 then strL "none"
  else if p = 1 then strL "low"
  else if p = 3 then strL "medium"
  else if p = 5 then strL "high"
  else strL "none"

/-- The record pushed into `results` by `due`/`priority` in
`lib/tasks.js`. -/
structure ScanEntry where
  id : Str
  fullId : Str
  projectId : Str
  projectName : Str
  title : Str
  dueDate : Option Int
  priority : Str
  tags : List Str
  deriving Repr, DecidableEq

/-- Reshape one task into a `due`/`priority` result entry. -/
def scanEntryOf (p : Project) (t : Task) : ScanEntry :=
  { id := shortId t.id
    fullId := t.id
    projectId := shortId t.projectId
    projectName := p.name
    title := t.title
    dueDate := t.dueDate
    priority := formatPriority t.priority
    tags := t.tags.getD [] }

/-- The filter inside `due`: reject a null/absent due date and
completed status, then keep `dueDate <= cutoff` — no lower bound, so
overdue tasks pass. -/
def dueFilter (cutoff : Int) (t : Task) : Bool :=
  match t.dueDate with
  | none => false
  | some d => if t.status = 2 then false else d ≤ cutoff

/-- The per-project accumulation loop of `due`: skip projects whose
fetch fails, keep the tasks passing `dueFilter` in listing order. -/
def dueGather (data : Str → Option (List Task)) (cutoff : Int) :
    List Project → List ScanEntry
  | [] => []
  | p :: ps =>
    match data p.id with
    | some ts => (ts.filter (dueFilter cutoff)).map (scanEntryOf p) ++ dueGather data cutoff ps
    | none => dueGather data cutoff ps

/-- Sort key of the final `results.sort((a, b) => new Date(a.dueDate) -
new Date(b.dueDate))`; every gathered entry has a parsed due date. -/
def dueKey (e : ScanEntry) : Int := e.dueDate.getD 0

/-- Function `due` from `lib/tasks.js`: cutoff is `now + days*24h` in
milliseconds; gather over every project, then stable-sort ascending by
due date. -/
def due (env : Env) (now days : Int) : List ScanEntry :=
  (dueGather env.data (now + days * 86400000) env.projects).mergeSort
    (fun a b => dueKey a ≤ dueKey b)

/-- The record pushed into `results` by `search`. -/
structure SearchEntry where
  id : Str
  fullId : Str
  projectId : Str
  projectName : Str
  title : Str
  content : Str
  dueDate : Option Int
  priority : Str
  tags : List Str
  status : Str
  deriving Repr, DecidableEq

/-- Reshape one task into a `search` result entry. -/
def searchEntryOf (p : Project) (t : Task) : SearchEntry :=
  { id := shortId t.id
    fullId := t.id
    projectId := shortId t.projectId
    projectName := p.name
    title := t.title
    content := t.content.getD []
    dueDate := t.dueDate
    priority := formatPriority t.priority
    tags := t.tags.getD []
    status := if t.status = 2 then strL "completed" else strL "active" }

/-- The optional filters of `search`. -/
structure SearchOptions where
  tags : Option (List Str)
  priority : Option Str
  deriving Repr, DecidableEq

/-- JS `String.prototype.includes`: contiguous substring test. -/
def includesStr (hay needle : Str) : Bool := decide (needle <:+: hay)

/-- Text clause of the `search` filter: an empty keyword matches
everything, otherwise case-insensitive substring match on the title or
on a truthy content. -/
def textMatch (keyword : Str) (t : Task) : Bool :=
  if keyword = [] then true
  else
    includesStr (lowerStr t.title) (lowerStr keyword) ||
      (match t.content with
       | none => false
       | some c => if c = [] then false else includesStr (lowerStr c) (lowerStr keyword))

/-- Tag clause: no tag filter matches everything; otherwise the task
must carry a tags array intersecting the requested tags. -/
def tagMatch (opts : SearchOptions) (t : Task) : Bool :=
  match opts.tags with
  | none => true
  | some otags =>
    match t.tags with
    | none => false
    | some ttags => otags.any (fun tag => ttags.contains tag)

/-- Priority clause: a falsy priority option matches everything;
otherwise the formatted task priority must equal the lowercased
option. -/
def priorityMatch (opts : SearchOptions) (t : Task) : Bool :=
  match opts.priority with
  | none => true
  | some p => if p = [] then true else formatPriority t.priority = lowerStr p

/-- Conjunction of the three `search` filter clauses. -/
def searchFilter (keyword : Str) (opts : SearchOptions) (t : Task) : Bool :=
  textMatch keyword t && tagMatch opts t && priorityMatch opts t

/-- The per-project accumulation loop of `search`: skip projects whose
fetch fails. -/
def searchGather (data : Str → Option (List Task)) (keyword : Str) (opts : SearchOptions) :
    List Project → List SearchEntry
  | [] => []
  | p :: ps =>
    match data p.id with
    | some ts =>
      (ts.filter (searchFilter keyword opts)).map (searchEntryOf p) ++
        searchGather data keyword opts ps
    | none => searchGather data keyword opts ps

/-- Function `search` from `lib/tasks.js` (the `tasks` field of its result). -/
def search (env : Env) (keyword : Str) (opts : SearchOptions) : List SearchEntry :=
  searchGather env.data keyword opts env.projects

/-- The per-project accumulation loop of `priority`: keep active
(`status !== 2`) tasks of priority exactly 5, skipping failed
fetches. -/
def priorityGather (data : Str → Option (List Task)) : List Project → List ScanEntry
  | [] => []
  | p :: ps =>
    match data p.id with
    | some ts =>
      (ts.filter (fun t => t.priority = 5 && t.status ≠ 2)).map (scanEntryOf p) ++
        priorityGather data ps
    | none => priorityGather data ps

/-- Function `priority` from `lib/tasks.js` (the `tasks` field of its result). -/
def priority (env : Env) : List ScanEntry :=
  priorityGather env.data env.projects

/-- Function `parsePriority` from `lib/core.js`: a falsy input yields
`undefined` (here `none`); the four level names (case-insensitive) map
to 0/1/3/5; anything else throws. -/
def parsePriority (p : Str) : Except TTError (Option Int) :=
  if p = [] then Except.ok none
  else if lowerStr p = strL "none" then Except.ok (some 0)
  else if lowerStr p = strL "low" then Except.ok (some 1)
  else if lowerStr p = strL "medium" then Except.ok (some 3)
  else if lowerStr p = strL "high" then Except.ok (some 5)
  else Except.error TTError.invalidPriority

/-- Decimal value of a digit run (`parseInt(num, 10)` on the digits
captured by the reminder regex). -/
def digitsVal (ds : Str) : Nat :=
  ds.foldl (fun a c => a * 10 + (c.toNat - 48)) 0

/-- Decimal rendering used when the parsed count is spliced back into
the iCalendar TRIGGER template string. -/
def natToStr (n : Nat) : Str := (toString n).toList

/-- Function `parseReminder` from `lib/core.js`: falsy input yields null; the
input must match `^(\d+)(m|h|d)$`, and the unit picks one of the three
TRIGGER templates; anything else throws. -/
def parseReminder (r : Str) : Except TTError (Option Str) :=
  if r = [] then Except.ok none
  else
    match r.getLast? with
    | none => Except.error TTError.invalidReminder
    | some u =>
      if r.dropLast ≠ [] ∧ r.dropLast.all Char.isDigit = true ∧
          (u = 'm' ∨ u = 'h' ∨ u = 'd') then
        if u = 'm' then
          Except.ok (some (strL "TRIGGER:-PT" ++ natToStr (digitsVal r.dropLast) ++ strL "M"))
        else if u = 'h' then
          Except.ok (some (strL "TRIGGER:-PT" ++ natToStr (digitsVal r.dropLast) ++ strL "H"))
        else
          Except.ok (some (strL "TRIGGER:-P" ++ natToStr (digitsVal r.dropLast) ++ strL "D"))
      else Except.error TTError.invalidReminder

/-- The `tags` option may be an array or a comma-separated string
(`Array.isArray(options.tags) ? options.tags :
options.tags.split(',').map(t => t.trim())`). -/
inductive TagsInput where
  | arr (tags : List Str)
  | raw (s : Str)
  deriving Repr, DecidableEq

/-- JS truthiness of the tags option: an array (even empty) is truthy,
a string is truthy when non-empty. -/
def tagsTruthy : Option TagsInput → Bool
  | none => false
  | some (TagsInput.arr _) => true
  | some (TagsInput.raw s) => s ≠ []

/-- Normalise the tags option into the array sent in the payload. -/
def tagsValue : TagsInput → List Str
  | TagsInput.arr l => l
  | TagsInput.raw s => (s.splitOn ',').map trimStr

/-- The option bag accepted by `create`/`update` in `lib/tasks.js`. -/
structure TaskOptions where
  title : Option Str
  content : Option Str
  dueDate : Option Str
  priority : Option Str
  tags : Option TagsInput
  reminder : Option Str
  deriving Repr, DecidableEq

/-- The option bag with nothing supplied. -/
def TaskOptions.empty : TaskOptions :=
  { title := none, content := none, dueDate := none, priority := none,
    tags := none, reminder := none }

/-- The request body built by `create`. -/
structure CreatePayload where
  title : Str
  projectId : Str
  content : Option Str
  dueDate : Option Str
  priority : Option Int
  tags : Option (List Str)
  reminders : Option (List Str)
  deriving Repr, DecidableEq

/-- The request body built by `update`. -/
structure UpdatePayload where
  id : Str
  title : Option Str
  content : Option Str
  dueDate : Option Str
  priority : Option Int
  tags : Option (List Str)
  reminders : Option (List Str)
  deriving Repr, DecidableEq

/-- One network request, as recorded for the claims about which calls
an operation issues. -/
inductive ApiCall where
  | getProjects
  | getProjectData (projectId : Str)
  | postTask (payload : CreatePayload)
  deriving Repr, DecidableEq

/-- The API calls `resolveProjectId` issues: none for a non-empty
non-short input, one `GET /project` otherwise. -/
def resolveProjectCalls (projectId : Str) : List ApiCall :=
  if projectId ≠ [] ∧ isShortId projectId = false then []
  else [ApiCall.getProjects]

/-- The optional-field part shared by `create` and `update`: each of
content/dueDate/priority/tags/reminder enters the payload only when
the supplied option is truthy; priority and reminder go through their
(throwing) parsers. -/
def optionalFields (opts : TaskOptions) :
    Except TTError (Option Str × Option Str × Option Int × Option (List Str) × Option (List Str)) :=
  match (if truthy opts.priority then parsePriority (opts.priority.getD []) else Except.ok none) with
  | Except.error e => Except.error e
  | Except.ok prio =>
    match (if truthy opts.reminder then parseReminder (opts.reminder.getD []) else Except.ok none) with
    | Except.error e => Except.error e
    | Except.ok rem =>
      Except.ok
        (if truthy opts.content then opts.content else none,
         if truthy opts.dueDate then opts.dueDate else none,
         prio,
         if tagsTruthy opts.tags then some (tagsValue (opts.tags.getD (TagsInput.arr []))) else none,
         match rem with
         | some s => if s = [] then none else some [s]
         | none => none)

/-- Function `create` from `lib/tasks.js`: validate the title first (before any
await), resolve the project, build the payload with the trimmed title,
then POST it.  Returns the network calls issued together with the
outcome. -/
def create (env : Env) (projectId : Str) (title : Str) (opts : TaskOptions) :
    List ApiCall × Except TTError CreatePayload :=
  if title = [] ∨ trimStr title = [] then
    ([], Except.error TTError.validationError)
  else
    let calls := resolveProjectCalls projectId
    match resolveProjectId env.projects projectId with
    | Except.error e => (calls, Except.error e)
    | Except.ok rpid =>
      match optionalFields opts with
      | Except.error e => (calls, Except.error e)
      | Except.ok (content, dueDate, prio, tags, rems) =>
        let payload : CreatePayload :=
          { title := trimStr title, projectId := rpid, content := content,
            dueDate := dueDate, priority := prio, tags := tags, reminders := rems }
        (calls ++ [ApiCall.postTask payload], Except.ok payload)

/-- Function `update` from `lib/tasks.js`: resolve the task id, then build a
payload of the id plus exactly the truthy options (the title is sent
as supplied, untrimmed). -/
def update (env : Env) (taskId : Str) (opts : TaskOptions) :
    Except TTError UpdatePayload :=
  let rtid := resolveTaskId env taskId none
  match optionalFields opts with
  | Except.error e => Except.error e
  | Except.ok (content, dueDate, prio, tags, rems) =>
    Except.ok
      { id := rtid
        title := if truthy opts.title then opts.title else none
        content := content, dueDate := dueDate, priority := prio,
        tags := tags, reminders := rems }

/-! ## Claim C1: token expiry boundary -/

/-- C1 (counterexample).  The claim asserts that at `now = expiresAt -
59999` the token is *not* expired.  In the code `isTokenExpired` is
`now >= expiresAt - 60000`, and `expiresAt - 59999` is one millisecond
*past* that threshold: with `expiresAt = 100000` and `now = 100000 -
59999 = 40001` the token is expired. -/
theorem isTokenExpired_at_59999_is_expired :
    ¬ (isTokenExpired (100000 - 59999)
        { accessToken := none, refreshToken := none, expiresAt := 100000 } = false) := by
  decide

/-- C1 (amended).  For every TokenSet `T` and current time `now`,
`isTokenExpired` returns true iff `now ≥ T.expiresAt - 60000`; at the
exact boundary `now = expiresAt - 60000` the token is expired, and at
`now = expiresAt - 60001` (one millisecond earlier) it is not. -/
theorem isTokenExpired_iff_and_boundary (now : Int) (t : TokenSet) :
    (isTokenExpired now t = true ↔ now ≥ t.expiresAt - 60000) ∧
    isTokenExpired (t.expiresAt - 60000) t = true ∧
    isTokenExpired (t.expiresAt - 60001) t = false := by
  refine ⟨?_, ?_, ?_⟩
  · simp [isTokenExpired]
  · simp only [isTokenExpired, decide_eq_true_eq]
    omega
  · simp only [isTokenExpired, decide_eq_false_iff_not]
    omega

/-! ## Claim C5: short-ID predicate on short strings -/

/-- C5 (counterexample).  The claim asserts `isShortId("") = true`.
The source returns `id && id.length <= 8`, which for the empty string
is the empty string itself — falsy; the repository's own test suite
asserts `!isShortId('')`. -/
theorem isShortId_empty_not_true : ¬ (isShortId [] = true) := by
  decide

/-- C5 (amended).  For every string `s` of length ≤ 8, `shortId s = s`;
`isShortId s` is true for every such non-empty `s`, but false (falsy)
for the empty string. -/
theorem shortId_id_isShortId_of_short (s : Str) (h : s.length ≤ 8) :
    shortId s = s ∧ (s ≠ [] → isShortId s = true) ∧ (s = [] → isShortId s = false) := by
  refine ⟨?_, ?_, ?_⟩
  · unfold shortId
    split
    · simp_all
    · exact List.take_of_length_le h
  · intro hne
    simp [isShortId, hne, h]
  · intro he
    simp [isShortId, he]

/-- C5 (witness): the amended theorem applied at `s = "abc"`. -/
theorem shortId_id_isShortId_of_short_witness :
    shortId (strL "abc") = strL "abc" ∧
    (strL "abc" ≠ [] → isShortId (strL "abc") = true) ∧
    (strL "abc" = [] → isShortId (strL "abc") = false) :=
  shortId_id_isShortId_of_short (strL "abc") (by decide)

/-! ## Claim C6: `getValidAccessToken` and missing access tokens -/

/-- C6 (counterexample).  The claim asserts `getValidAccessToken`
fails with `NotAuthenticated` whenever the persisted TokenSet's
`accessToken` field is absent.  With a stored, unexpired TokenSet
lacking `accessToken` (`now = 0`, `expiresAt = 1000000`), the code
never inspects `accessToken`: it returns it as the result (the absent
value) instead of failing. -/
theorem getValidAccessToken_missing_accessToken_no_error :
    getValidAccessToken 0
      (some { accessToken := none, refreshToken := some (strL "r"), expiresAt := 1000000 })
      (Except.error TTError.refreshFailed) = Except.ok none := by
  decide

/-- C6 (amended).  `getValidAccessToken` fails with `NotAuthenticated`
exactly when no persisted TokenSet exists (`loadTokens` yields `none`
for a missing, empty or corrupted token file); an existing TokenSet is
never rejected for lacking `accessToken` — when unexpired, the
(possibly absent) stored `accessToken` is returned as-is. -/
theorem getValidAccessToken_notAuthenticated_iff :
    (∀ (now : Int) (r : Except TTError TokenSet),
      getValidAccessToken now none r = Except.error TTError.notAuthenticated) ∧
    (∀ (now : Int) (t : TokenSet) (r : Except TTError TokenSet),
      isTokenExpired now t = false →
      getValidAccessToken now (some t) r = Except.ok t.accessToken) := by
  refine ⟨fun _ _ => rfl, fun now t r h => ?_⟩
  simp [getValidAccessToken, h]

/-- C6 (witness): the amended theorem applied at a concrete missing
token file and at a concrete unexpired TokenSet without
`accessToken`. -/
theorem getValidAccessToken_notAuthenticated_iff_witness :
    getValidAccessToken 7 none (Except.error TTError.refreshFailed) =
      Except.error TTError.notAuthenticated ∧
    getValidAccessToken 7
      (some { accessToken := none, refreshToken := none, expiresAt := 2000000 })
      (Except.error TTError.refreshFailed) =
      Except.ok ({ accessToken := none, refreshToken := none,
                   expiresAt := 2000000 : TokenSet }).accessToken :=
  ⟨getValidAccessToken_notAuthenticated_iff.1 7 (Except.error TTError.refreshFailed),
   getValidAccessToken_notAuthenticated_iff.2 7
     { accessToken := none, refreshToken := none, expiresAt := 2000000 }
     (Except.error TTError.refreshFailed) (by decide)⟩

/-! ## Claim C4: empty project id resolves to the inbox -/

/-- On empty input, `resolveProjectId` reduces to the inbox lookup. -/
theorem resolveProjectId_nil (ps : List Project) :
    resolveProjectId ps [] =
      match ps.find? (fun p => (strL "inbox").isPrefixOf p.id) with
      | some p => Except.ok p.id
      | none => Except.error TTError.inboxNotFound := by
  simp [resolveProjectId]

/-- C4.  `resolveProjectId ""` consults the project listing: when some
entry's id starts with the literal `"inbox"`, the result is `ok` of
such an entry's id (the first one in listing order); when no entry's
id starts with `"inbox"`, it fails with `InboxNotFound` — it never
returns the empty string or an unrelated project. -/
theorem resolveProjectId_empty_inbox (ps : List Project) :
    ((∃ p, p ∈ ps ∧ (strL "inbox").isPrefixOf p.id = true) →
      ∃ q, q ∈ ps ∧ (strL "inbox").isPrefixOf q.id = true ∧
        resolveProjectId ps [] = Except.ok q.id) ∧
    ((∀ p, p ∈ ps → ¬ (strL "inbox").isPrefixOf p.id = true) →
      resolveProjectId ps [] = Except.error TTError.inboxNotFound) := by
  constructor
  · rintro ⟨p, hp, hpre⟩
    have hs : (ps.find? (fun p => (strL "inbox").isPrefixOf p.id)).isSome :=
      List.find?_isSome.mpr ⟨p, hp, hpre⟩
    obtain ⟨q, hq⟩ := Option.isSome_iff_exists.mp hs
    refine ⟨q, List.mem_of_find?_eq_some hq, by simpa using List.find?_some hq, ?_⟩
    rw [resolveProjectId_nil, hq]
  · intro h
    rw [resolveProjectId_nil, List.find?_eq_none.mpr h]

/-- C4 (witness): applied to a listing whose second entry has id
`inbox123` and to a listing with no inbox entry. -/
theorem resolveProjectId_empty_inbox_witness :
    (∃ q, q ∈ [({ id := strL "wxyz", name := strL "A" } : Project),
                { id := strL "inbox123", name := strL "Inbox" }] ∧
      (strL "inbox").isPrefixOf q.id = true ∧
      resolveProjectId [({ id := strL "wxyz", name := strL "A" } : Project),
                        { id := strL "inbox123", name := strL "Inbox" }] [] =
        Except.ok q.id) ∧
    resolveProjectId [({ id := strL "abcd", name := strL "B" } : Project)] [] =
      Except.error TTError.inboxNotFound :=
  ⟨(resolveProjectId_empty_inbox _).1
      ⟨{ id := strL "inbox123", name := strL "Inbox" }, by decide, by decide⟩,
   (resolveProjectId_empty_inbox _).2 (by decide)⟩

/-! ## Claim C3: unmatched short ids pass through unchanged -/

/-- If no reachable task has `s` as an id prefix, the all-projects
scan comes up empty. -/
theorem findTaskAcross_eq_none (data : Str → Option (List Task)) (s : Str)
    (ps : List Project)
    (h : ∀ p, p ∈ ps → ∀ t, t ∈ (data p.id).getD [] → ¬ s.isPrefixOf t.id = true) :
    findTaskAcross data s ps = none := by
  induction ps with
  | nil => rfl
  | cons p ps ih =>
    have htail : ∀ q, q ∈ ps → ∀ t, t ∈ (data q.id).getD [] → ¬ s.isPrefixOf t.id = true :=
      fun q hq => h q (List.mem_cons_of_mem p hq)
    cases hd : data p.id with
    | none =>
      simp only [findTaskAcross, hd]
      exact ih htail
    | some ts =>
      have hnone : ts.find? (fun t => s.isPrefixOf t.id) = none :=
        List.find?_eq_none.mpr (fun t ht => by
          have := h p (List.mem_cons_self p ps) t (by rw [hd]; exact ht)
          simpa using this)
      simp only [findTaskAcross, hd, hnone]
      exact ih htail

/-- The predicate `isShortId` is true on non-empty strings of length at most 8. -/
theorem isShortId_true_of_short (s : Str) (hne : s ≠ []) (hlen : s.length ≤ 8) :
    isShortId s = true := by
  simp [isShortId, hne, hlen]

/-- C3.  For every non-empty input of length ≤ 8 that is an id prefix
of no entry in the relevant listings, `resolveProjectId` returns `ok`
of the input unchanged (no local error) and `resolveTaskId` returns
the input unchanged — regardless of the project hint; existence
checking is left to the remote API. -/
theorem resolver_unmatched_passthrough (s : Str) (hne : s ≠ []) (hlen : s.length ≤ 8) :
    (∀ ps : List Project, (∀ p, p ∈ ps → ¬ s.isPrefixOf p.id = true) →
      resolveProjectId ps s = Except.ok s) ∧
    (∀ (env : Env) (hint : Option Str),
      (∀ p, p ∈ env.projects → ∀ t, t ∈ (env.data p.id).getD [] →
        ¬ s.isPrefixOf t.id = true) →
      (∀ pid, hint = some pid → ∀ t, t ∈ (env.data pid).getD [] →
        ¬ s.isPrefixOf t.id = true) →
      resolveTaskId env s hint = s) := by
  have hshort := isShortId_true_of_short s hne hlen
  constructor
  · intro ps h
    simp only [resolveProjectId]
    rw [if_neg (by simp [hshort]), if_neg hne, List.find?_eq_none.mpr h]
  · intro env hint h hhint
    have hmain : findTaskAcross env.data s env.projects = none :=
      findTaskAcross_eq_none env.data s env.projects h
    have hvia : resolveTaskIdHint env.data s hint = none := by
      cases hint with
      | none => rfl
      | some pid =>
        simp only [resolveTaskIdHint]
        by_cases hpid : pid = []
        · rw [if_pos hpid]
        · rw [if_neg hpid]
          cases hd : env.data pid with
          | none => rfl
          | some ts =>
            have hfind : ts.find? (fun t => s.isPrefixOf t.id) = none :=
              List.find?_eq_none.mpr (fun t ht => by
                have := hhint pid rfl t (by rw [hd]; exact ht)
                simpa using this)
            simp [hfind]
    simp only [resolveTaskId]
    rw [if_neg (by simp [hshort]), hvia, hmain]
    rfl

/-- C3 (witness): input `"zz"` against a listing with one project
`abcdefgh123` holding one task `qrstuv99`; neither the project nor the
task resolution finds a match, and both return `"zz"`. -/
theorem resolver_unmatched_passthrough_witness :
    resolveProjectId [({ id := strL "abcdefgh123", name := strL "Work" } : Project)]
        (strL "zz") = Except.ok (strL "zz") ∧
    resolveTaskId
        { projects := [{ id := strL "abcdefgh123", name := strL "Work" }],
          data := fun pid =>
            if pid = strL "abcdefgh123" then
              some [{ id := strL "qrstuv99", projectId := strL "abcdefgh123",
                      title := strL "T", content := none, dueDate := none,
                      priority := 0, tags := none, status := 0 }]
            else none }
        (strL "zz") (some (strL "abcdefgh123")) = strL "zz" :=
  ⟨(resolver_unmatched_passthrough (strL "zz") (by decide) (by decide)).1 _ (by decide),
   (resolver_unmatched_passthrough (strL "zz") (by decide) (by decide)).2 _
     (some (strL "abcdefgh123"))
     (by decide)
     (by
       intro pid hp
       obtain rfl : pid = strL "abcdefgh123" := by
         simpa using hp.symm
       decide)⟩

/-! ## Claim C2: round-trip of id abbreviation through resolution -/

/-- The function `shortId` of a non-empty string is non-empty. -/
theorem shortId_ne_nil (f : Str) (hf : f ≠ []) : shortId f ≠ [] := by
  simp only [shortId, if_neg hf]
  simp [List.take_eq_nil_iff, hf]

/-- The function `shortId` never exceeds 8 characters. -/
theorem shortId_length_le (f : Str) : (shortId f).length ≤ 8 := by
  unfold shortId
  split
  · simp
  · simp [List.length_take]

/-- The string `shortId f` is a prefix of `f`. -/
theorem shortId_isPrefixOf_self (f : Str) : (shortId f).isPrefixOf f = true := by
  unfold shortId
  split
  · rename_i h
    subst h
    rfl
  · exact List.isPrefixOf_iff_prefix.mpr ( List.take_prefix 8 f)

/-- If some reachable task matches the prefix and every reachable
match has id `f`, the all-projects scan returns `f`. -/
theorem findTaskAcross_unique (data : Str → Option (List Task)) (s f : Str)
    (ps : List Project)
    (hex : ∃ p, p ∈ ps ∧ ∃ t, t ∈ (data p.id).getD [] ∧ s.isPrefixOf t.id = true)
    (huniq : ∀ p, p ∈ ps → ∀ t, t ∈ (data p.id).getD [] →
      s.isPrefixOf t.id = true → t.id = f) :
    findTaskAcross data s ps = some f := by
  induction ps with
  | nil =>
    obtain ⟨p, hp, _⟩ := hex
    exact absurd hp (List.not_mem_nil p)
  | cons p ps ih =>
    have htail : ∀ q, q ∈ ps → ∀ t, t ∈ (data q.id).getD [] →
        s.isPrefixOf t.id = true → t.id = f :=
      fun q hq => huniq q (List.mem_cons_of_mem p hq)
    cases hd : data p.id with
    | none =>
      simp only [findTaskAcross, hd]
      apply ih ?_ htail
      obtain ⟨q, hq, t, ht, hpre⟩ := hex
      rcases List.mem_cons.mp hq with rfl | hq'
      · rw [hd] at ht
        simp at ht
      · exact ⟨q, hq', t, ht, hpre⟩
    | some ts =>
      simp only [findTaskAcross, hd]
      cases hfq : ts.find? (fun t => s.isPrefixOf t.id) with
      | some t =>
        have hmem := List.mem_of_find?_eq_some hfq
        have hpre : s.isPrefixOf t.id = true := by simpa using List.find?_some hfq
        have hid : t.id = f :=
          huniq p (List.mem_cons_self p ps) t (by rw [hd]; exact hmem) hpre
        simp [hid]
      | none =>
        apply ih ?_ htail
        obtain ⟨q, hq, t, ht, hpre⟩ := hex
        rcases List.mem_cons.mp hq with rfl | hq'
        · rw [hd] at ht
          have := List.find?_eq_none.mp hfq t ht
          simp [hpre] at this
        · exact ⟨q, hq', t, ht, hpre⟩

/-- C2.  For every non-empty full id `f`: resolving `shortId f`
against a project listing in which `f` appears and in which every
entry with `shortId f` as an id prefix is `f` itself returns exactly
`ok f`; likewise `resolveTaskId` over an environment in which `f`
appears among the reachable tasks and is the unique prefix match
returns exactly `f`. -/
theorem resolve_shortId_roundTrip (f : Str) (hf : f ≠ []) :
    (∀ ps : List Project,
      (∃ p, p ∈ ps ∧ p.id = f) →
      (∀ p, p ∈ ps → (shortId f).isPrefixOf p.id = true → p.id = f) →
      resolveProjectId ps (shortId f) = Except.ok f) ∧
    (∀ env : Env,
      (∃ p, p ∈ env.projects ∧ ∃ t, t ∈ (env.data p.id).getD [] ∧ t.id = f) →
      (∀ p, p ∈ env.projects → ∀ t, t ∈ (env.data p.id).getD [] →
        (shortId f).isPrefixOf t.id = true → t.id = f) →
      resolveTaskId env (shortId f) none = f) := by
  have hsne := shortId_ne_nil f hf
  have hshort : isShortId (shortId f) = true :=
    isShortId_true_of_short _ hsne (shortId_length_le f)
  constructor
  · intro ps hex huniq
    simp only [resolveProjectId]
    rw [if_neg (by simp [hshort]), if_neg hsne]
    obtain ⟨p0, hp0, hid0⟩ := hex
    have hsome : (ps.find? (fun p => (shortId f).isPrefixOf p.id)).isSome :=
      List.find?_isSome.mpr
        ⟨p0, hp0, show (shortId f).isPrefixOf p0.id = true by
          rw [hid0]; exact shortId_isPrefixOf_self f⟩
    obtain ⟨q, hq⟩ := Option.isSome_iff_exists.mp hsome
    have hqid : q.id = f :=
      huniq q (List.mem_of_find?_eq_some hq) (by simpa using List.find?_some hq)
    rw [hq]
    show Except.ok q.id = Except.ok f
    rw [hqid]
  · intro env hex huniq
    simp only [resolveTaskId]
    rw [if_neg (by simp [hshort])]
    have hfind : findTaskAcross env.data (shortId f) env.projects = some f := by
      apply findTaskAcross_unique env.data (shortId f) f env.projects ?_ huniq
      obtain ⟨p0, hp0, t0, ht0, hid0⟩ := hex
      exact ⟨p0, hp0, t0, ht0, by rw [hid0]; exact shortId_isPrefixOf_self f⟩
    show (findTaskAcross env.data (shortId f) env.projects).getD (shortId f) = f
    rw [hfind]
    rfl

/-- C2 (witness): the round-trip applied to the full id
`abcdefgh1234` (short form `abcdefgh`) for a concrete project listing
and a concrete task environment. -/
theorem resolve_shortId_roundTrip_witness :
    resolveProjectId
        [({ id := strL "abcdefgh1234", name := strL "Work" } : Project)]
        (shortId (strL "abcdefgh1234")) = Except.ok (strL "abcdefgh1234") ∧
    resolveTaskId
        { projects := [{ id := strL "p1", name := strL "W" }],
          data := fun pid =>
            if pid = strL "p1" then
              some [{ id := strL "abcdefgh1234", projectId := strL "p1",
                      title := strL "T", content := none, dueDate := none,
                      priority := 0, tags := none, status := 0 }]
            else none }
        (shortId (strL "abcdefgh1234")) none = strL "abcdefgh1234" :=
  ⟨(resolve_shortId_roundTrip (strL "abcdefgh1234") (by decide)).1 _
      (by decide) (by decide),
   (resolve_shortId_roundTrip (strL "abcdefgh1234") (by decide)).2 _
      (by decide) (by decide)⟩

/-! ## Claim C7: `due` membership and ordering -/

/-- Unfolding of the `due` filter: non-null due date, not completed,
due date at most the cutoff — and no lower bound. -/
theorem dueFilter_iff (cutoff : Int) (t : Task) :
    dueFilter cutoff t = true ↔
      ∃ d, t.dueDate = some d ∧ t.status ≠ 2 ∧ d ≤ cutoff := by
  unfold dueFilter
  cases hd : t.dueDate with
  | none => simp
  | some d =>
    by_cases hs : t.status = 2
    · simp [hs]
    · simp [hs]

/-- Membership in the `due` accumulation loop. -/
theorem mem_dueGather (data : Str → Option (List Task)) (cutoff : Int)
    (ps : List Project) (e : ScanEntry) :
    e ∈ dueGather data cutoff ps ↔
      ∃ p, p ∈ ps ∧ ∃ t, t ∈ (data p.id).getD [] ∧ dueFilter cutoff t = true ∧
        e = scanEntryOf p t := by
  induction ps with
  | nil => simp [dueGather]
  | cons p ps ih =>
    cases hd : data p.id with
    | none =>
      simp only [dueGather, hd, ih]
      constructor
      · rintro ⟨q, hq, rest⟩
        exact ⟨q, List.mem_cons_of_mem p hq, rest⟩
      · rintro ⟨q, hq, t, ht, rest⟩
        rcases List.mem_cons.mp hq with rfl | hq'
        · rw [hd] at ht
          simp at ht
        · exact ⟨q, hq', t, ht, rest⟩
    | some ts =>
      simp only [dueGather, hd, List.mem_append, List.mem_map, List.mem_filter, ih]
      constructor
      · rintro (⟨t, ⟨ht, hf⟩, rfl⟩ | ⟨q, hq, rest⟩)
        · exact ⟨p, List.mem_cons_self p ps, t, by rw [hd]; exact ht, hf, rfl⟩
        · exact ⟨q, List.mem_cons_of_mem p hq, rest⟩
      · rintro ⟨q, hq, t, ht, hf, rfl⟩
        rcases List.mem_cons.mp hq with rfl | hq'
        · rw [hd] at ht
          exact Or.inl ⟨t, ⟨ht, hf⟩, rfl⟩
        · exact Or.inr ⟨q, hq', t, ht, hf, rfl⟩

/-- The final sort of `due` really sorts by due date. -/
theorem due_sorted_helper (env : Env) (now days : Int) :
    (due env now days).Pairwise (fun a b => dueKey a ≤ dueKey b) := by
  unfold due
  have h := @List.sorted_mergeSort ScanEntry
      (fun a b => decide (dueKey a ≤ dueKey b))
      (fun a b c hab hbc => by
        simp only [decide_eq_true_eq] at *
        omega)
      (fun a b => by simpa using Int.le_total (dueKey a) (dueKey b))
      (dueGather env.data (now + days * 86400000) env.projects)
  refine h.imp ?_
  intro a b hab
  simpa using hab

/-- C7.  A task reachable from the fetched listings appears in
`due(N)` whenever its due date is non-null, it is not completed and
its due date is at most `now + N*24h` — with no lower bound, so
overdue tasks are included; every returned entry arises from such a
task; and the result is sorted ascending by due date. -/
theorem due_membership_and_sorted (env : Env) (now days : Int) :
    (∀ p, p ∈ env.projects → ∀ t, t ∈ (env.data p.id).getD [] →
      ∀ d, t.dueDate = some d → t.status ≠ 2 → d ≤ now + days * 86400000 →
        scanEntryOf p t ∈ due env now days) ∧
    (∀ e, e ∈ due env now days →
      ∃ p, p ∈ env.projects ∧ ∃ t, t ∈ (env.data p.id).getD [] ∧
        e = scanEntryOf p t ∧
        ∃ d, t.dueDate = some d ∧ t.status ≠ 2 ∧ d ≤ now + days * 86400000) ∧
    (due env now days).Pairwise (fun a b => dueKey a ≤ dueKey b) := by
  refine ⟨?_, ?_, due_sorted_helper env now days⟩
  · intro p hp t ht d hd hs hle
    have hf : dueFilter (now + days * 86400000) t = true :=
      (dueFilter_iff _ _).mpr ⟨d, hd, hs, hle⟩
    have hmem : scanEntryOf p t ∈
        dueGather env.data (now + days * 86400000) env.projects :=
      (mem_dueGather _ _ _ _).mpr ⟨p, hp, t, ht, hf, rfl⟩
    simpa [due] using hmem
  · intro e he
    have hmem : e ∈ dueGather env.data (now + days * 86400000) env.projects := by
      simpa [due] using he
    obtain ⟨p, hp, t, ht, hf, rfl⟩ := (mem_dueGather _ _ _ _).mp hmem
    obtain ⟨d, hd, hs, hle⟩ := (dueFilter_iff _ _).mp hf
    exact ⟨p, hp, t, ht, rfl, d, hd, hs, hle⟩

/-- C7 (witness): over a project holding an overdue task (due one day
before `now = 0`), `due(7)` includes the overdue task. -/
theorem due_membership_and_sorted_witness :
    scanEntryOf { id := strL "p1", name := strL "Work" }
        { id := strL "overdue1", projectId := strL "p1", title := strL "Overdue",
          content := none, dueDate := some (-86400000), priority := 5,
          tags := none, status := 0 } ∈
      due { projects := [{ id := strL "p1", name := strL "Work" }],
            data := fun pid =>
              if pid = strL "p1" then
                some [{ id := strL "overdue1", projectId := strL "p1",
                        title := strL "Overdue", content := none,
                        dueDate := some (-86400000), priority := 5,
                        tags := none, status := 0 },
                      { id := strL "tomorrw1", projectId := strL "p1",
                        title := strL "Tomorrow", content := none,
                        dueDate := some 86400000, priority := 0,
                        tags := none, status := 0 },
                      { id := strL "tendays1", projectId := strL "p1",
                        title := strL "Ten", content := none,
                        dueDate := some 864000000, priority := 0,
                        tags := none, status := 0 }]
              else none } 0 7 :=
  (due_membership_and_sorted _ 0 7).1 _ (by decide) _ (by decide)
    (-86400000) rfl (by decide) (by decide)

/-! ## Claim C9: multi-project scans tolerate per-project fetch failures -/

/-- Restricting the listing to the projects whose fetch succeeds does
not change the `due` accumulation. -/
theorem dueGather_filter_eq (data : Str → Option (List Task)) (cutoff : Int)
    (ps : List Project) :
    dueGather data cutoff (ps.filter (fun p => (data p.id).isSome)) =
      dueGather data cutoff ps := by
  induction ps with
  | nil => rfl
  | cons p ps ih =>
    cases hd : data p.id with
    | none => simp [List.filter_cons, hd, dueGather, ih]
    | some ts => simp [List.filter_cons, hd, dueGather, ih]

/-- Restricting the listing to the projects whose fetch succeeds does
not change the `search` accumulation. -/
theorem searchGather_filter_eq (data : Str → Option (List Task)) (keyword : Str)
    (opts : SearchOptions) (ps : List Project) :
    searchGather data keyword opts (ps.filter (fun p => (data p.id).isSome)) =
      searchGather data keyword opts ps := by
  induction ps with
  | nil => rfl
  | cons p ps ih =>
    cases hd : data p.id with
    | none => simp [List.filter_cons, hd, searchGather, ih]
    | some ts => simp [List.filter_cons, hd, searchGather, ih]

/-- Restricting the listing to the projects whose fetch succeeds does
not change the `priority` accumulation. -/
theorem priorityGather_filter_eq (data : Str → Option (List Task))
    (ps : List Project) :
    priorityGather data (ps.filter (fun p => (data p.id).isSome)) =
      priorityGather data ps := by
  induction ps with
  | nil => rfl
  | cons p ps ih =>
    cases hd : data p.id with
    | none => simp [List.filter_cons, hd, priorityGather, ih]
    | some ts => simp [List.filter_cons, hd, priorityGather, ih]

/-- C9.  Each multi-project scan — `search`, `due`, `priority` — over
an environment with an arbitrary pattern of per-project fetch failures
succeeds and returns exactly the results computed over the
environment restricted to the projects whose fetch succeeds: failing
projects are skipped, never turned into an aggregate failure. -/
theorem scans_skip_failed_projects (env : Env) (keyword : Str)
    (opts : SearchOptions) (now days : Int) :
    search env keyword opts =
      search { projects := env.projects.filter (fun p => (env.data p.id).isSome),
               data := env.data } keyword opts ∧
    due env now days =
      due { projects := env.projects.filter (fun p => (env.data p.id).isSome),
            data := env.data } now days ∧
    priority env =
      priority { projects := env.projects.filter (fun p => (env.data p.id).isSome),
                 data := env.data } := by
  refine ⟨?_, ?_, ?_⟩
  · exact (searchGather_filter_eq env.data keyword opts env.projects).symm
  · show due env now days =
      (dueGather env.data (now + days * 86400000)
        (env.projects.filter (fun p => (env.data p.id).isSome))).mergeSort
        (fun a b => dueKey a ≤ dueKey b)
    rw [dueGather_filter_eq]
    rfl
  · exact (priorityGather_filter_eq env.data env.projects).symm

/-! ## Claims C8 and C10: create/update payload construction -/

/-- A successful `parsePriority` on a truthy (non-empty) input always
carries a numeric level. -/
theorem parsePriority_ok_ne_nil (p : Str) (hp : p ≠ []) (v : Option Int)
    (h : parsePriority p = Except.ok v) : v.isSome = true := by
  unfold parsePriority at h
  rw [if_neg hp] at h
  split_ifs at h <;> cases h <;> rfl

/-- A successful `parseReminder` on a truthy (non-empty) input always
carries a non-empty TRIGGER string. -/
theorem parseReminder_ok_ne_nil (r : Str) (hr : r ≠ []) (v : Option Str)
    (h : parseReminder r = Except.ok v) : ∃ s, v = some s ∧ s ≠ [] := by
  unfold parseReminder at h
  rw [if_neg hr] at h
  split at h
  · cases h
  · split_ifs at h <;> cases h <;>
      exact ⟨_, rfl, List.append_ne_nil_of_left_ne_nil
        (List.append_ne_nil_of_left_ne_nil (by decide) _) _⟩

/-- Shape of a successful `optionalFields`: each component is present
exactly when the corresponding option is truthy. -/
theorem optionalFields_ok (opts : TaskOptions) (c d : Option Str)
    (pr : Option Int) (tg rm : Option (List Str))
    (h : optionalFields opts = Except.ok (c, d, pr, tg, rm)) :
    c = (if truthy opts.content then opts.content else none) ∧
    d = (if truthy opts.dueDate then opts.dueDate else none) ∧
    pr.isSome = truthy opts.priority ∧
    tg = (if tagsTruthy opts.tags then
            some (tagsValue (opts.tags.getD (TagsInput.arr []))) else none) ∧
    rm.isSome = truthy opts.reminder := by
  unfold optionalFields at h
  cases hp : (if truthy opts.priority then parsePriority (opts.priority.getD [])
              else Except.ok none) with
  | error e =>
    rw [hp] at h
    cases h
  | ok prio =>
    rw [hp] at h
    cases hr : (if truthy opts.reminder then parseReminder (opts.reminder.getD [])
                else Except.ok none) with
    | error e =>
      rw [hr] at h
      cases h
    | ok rem =>
      rw [hr] at h
      simp only [Except.ok.injEq, Prod.mk.injEq] at h
      obtain ⟨hc, hd, hprio, htg, hrm⟩ := h
      refine ⟨hc.symm, hd.symm, ?_, htg.symm, ?_⟩
      · by_cases ht : truthy opts.priority
        · rw [if_pos ht] at hp
          have harg : opts.priority.getD [] ≠ [] := by
            cases hopt : opts.priority with
            | none => simp [truthy, hopt] at ht
            | some s =>
              rw [hopt] at ht
              simpa [truthy] using ht
          rw [← hprio, ht]
          exact parsePriority_ok_ne_nil _ harg _ hp
        · rw [if_neg ht] at hp
          have : prio = none := by
            cases hp
            rfl
          simp [← hprio, this, ht]
      · by_cases ht : truthy opts.reminder
        · rw [if_pos ht] at hr
          have harg : opts.reminder.getD [] ≠ [] := by
            cases hopt : opts.reminder with
            | none => simp [truthy, hopt] at ht
            | some s =>
              rw [hopt] at ht
              simpa [truthy] using ht
          obtain ⟨s, rfl, hs⟩ := parseReminder_ok_ne_nil _ harg _ hr
          rw [← hrm, ht]
          simp [hs]
        · rw [if_neg ht] at hr
          have : rem = none := by
            cases hr
            rfl
          simp [← hrm, this, ht]

/-- Shape of a successful `create`: the payload is the trimmed title,
the resolved project and the `optionalFields` components. -/
theorem create_ok_shape (env : Env) (pid title : Str) (opts : TaskOptions)
    (calls : List ApiCall) (payload : CreatePayload)
    (h : create env pid title opts = (calls, Except.ok payload)) :
    ∃ rpid c d pr tg rm,
      resolveProjectId env.projects pid = Except.ok rpid ∧
      optionalFields opts = Except.ok (c, d, pr, tg, rm) ∧
      payload = { title := trimStr title, projectId := rpid, content := c,
                  dueDate := d, priority := pr, tags := tg, reminders := rm } := by
  unfold create at h
  split_ifs at h with hv
  · cases h
  · cases hrp : resolveProjectId env.projects pid with
    | error e =>
      rw [hrp] at h
      cases h
    | ok rpid =>
      rw [hrp] at h
      cases ho : optionalFields opts with
      | error e =>
        rw [ho] at h
        cases h
      | ok tup =>
        obtain ⟨c, d, pr, tg, rm⟩ := tup
        rw [ho] at h
        simp only [Prod.mk.injEq, Except.ok.injEq] at h
        exact ⟨rpid, c, d, pr, tg, rm, rfl, rfl, h.2.symm⟩

/-- C8.  Creating a task with an empty or whitespace-only title fails
with `ValidationError` with zero network calls issued (the call trace
is empty), and every accepted title is sent trimmed in the request
body. -/
theorem create_empty_title_validation :
    (∀ (env : Env) (pid title : Str) (opts : TaskOptions),
      (title = [] ∨ trimStr title = []) →
      create env pid title opts = ([], Except.error TTError.validationError)) ∧
    (∀ (env : Env) (pid title : Str) (opts : TaskOptions)
        (calls : List ApiCall) (payload : CreatePayload),
      create env pid title opts = (calls, Except.ok payload) →
      payload.title = trimStr title) := by
  constructor
  · intro env pid title opts hv
    unfold create
    rw [if_pos hv]
  · intro env pid title opts calls payload h
    obtain ⟨rpid, c, d, pr, tg, rm, _, _, hpl⟩ :=
      create_ok_shape env pid title opts calls payload h
    rw [hpl]

/-- C8 (witness): a whitespace-only title is rejected with an empty
call trace, and a concrete accepted title `" hi "` is sent as the
trimmed `"hi"`. -/
theorem create_empty_title_validation_witness :
    create { projects := [], data := fun _ => none }
        (strL "abcdefgh1234") (strL "   ") TaskOptions.empty =
      ([], Except.error TTError.validationError) ∧
    ({ title := strL "hi", projectId := strL "abcdefgh1234", content := none,
       dueDate := none, priority := none, tags := none,
       reminders := none } : CreatePayload).title = trimStr (strL " hi ") :=
  ⟨create_empty_title_validation.1 _ (strL "abcdefgh1234") (strL "   ")
      TaskOptions.empty (by decide),
   create_empty_title_validation.2 { projects := [], data := fun _ => none }
      (strL "abcdefgh1234") (strL " hi ") TaskOptions.empty
      [ApiCall.postTask
        { title := strL "hi", projectId := strL "abcdefgh1234", content := none,
          dueDate := none, priority := none, tags := none, reminders := none }]
      _ (by decide)⟩

/-- C10.  In `update` (and likewise in `create`), every optional field
whose supplied value is falsy — absent or the empty string (an empty
tags array counts as truthy, as in JS) — is omitted from the request
payload, so no field of an existing task can be cleared to empty
through `update`; the payload holds exactly the resolved id plus the
truthy-valued options, priority and reminder going through their
parsers. -/
theorem falsy_options_omitted :
    (∀ (env : Env) (taskId : Str) (opts : TaskOptions) (payload : UpdatePayload),
      update env taskId opts = Except.ok payload →
      payload.id = resolveTaskId env taskId none ∧
      payload.title = (if truthy opts.title then opts.title else none) ∧
      payload.content = (if truthy opts.content then opts.content else none) ∧
      payload.dueDate = (if truthy opts.dueDate then opts.dueDate else none) ∧
      payload.priority.isSome = truthy opts.priority ∧
      payload.tags = (if tagsTruthy opts.tags then
        some (tagsValue (opts.tags.getD (TagsInput.arr []))) else none) ∧
      payload.reminders.isSome = truthy opts.reminder) ∧
    (∀ (env : Env) (pid title : Str) (opts : TaskOptions)
        (calls : List ApiCall) (payload : CreatePayload),
      create env pid title opts = (calls, Except.ok payload) →
      payload.content = (if truthy opts.content then opts.content else none) ∧
      payload.dueDate = (if truthy opts.dueDate then opts.dueDate else none) ∧
      payload.priority.isSome = truthy opts.priority ∧
      payload.tags = (if tagsTruthy opts.tags then
        some (tagsValue (opts.tags.getD (TagsInput.arr []))) else none) ∧
      payload.reminders.isSome = truthy opts.reminder) := by
  constructor
  · intro env taskId opts payload h
    unfold update at h
    cases ho : optionalFields opts with
    | error e =>
      rw [ho] at h
      cases h
    | ok tup =>
      obtain ⟨c, d, pr, tg, rm⟩ := tup
      rw [ho] at h
      cases h
      obtain ⟨hc, hd, hpr, htg, hrm⟩ := optionalFields_ok opts c d pr tg rm ho
      exact ⟨rfl, rfl, hc, hd, hpr, htg, hrm⟩
  · intro env pid title opts calls payload h
    obtain ⟨rpid, c, d, pr, tg, rm, hrp, ho, hpl⟩ :=
      create_ok_shape env pid title opts calls payload h
    obtain ⟨hc, hd, hpr, htg, hrm⟩ := optionalFields_ok opts c d pr tg rm ho
    rw [hpl]
    exact ⟨hc, hd, hpr, htg, hrm⟩

/-- C10 (witness): updating task `abcdefgh9999` with a truthy title, a
falsy (empty-string) content and priority `high` yields a payload
with exactly the id, the title and the numeric priority — the empty
content was omitted, not sent as a clearing value. -/
theorem falsy_options_omitted_witness :
    ({ id := strL "abcdefgh9999", title := some (strL "New"), content := none,
       dueDate := none, priority := some 5, tags := none,
       reminders := none } : UpdatePayload).id =
      resolveTaskId { projects := [], data := fun _ => none }
        (strL "abcdefgh9999") none ∧
    ({ id := strL "abcdefgh9999", title := some (strL "New"), content := none,
       dueDate := none, priority := some 5, tags := none,
       reminders := none } : UpdatePayload).title =
      (if truthy (some (strL "New")) then some (strL "New") else none) ∧
    ({ id := strL "abcdefgh9999", title := some (strL "New"), content := none,
       dueDate := none, priority := some 5, tags := none,
       reminders := none } : UpdatePayload).content =
      (if truthy (some []) then some [] else none) ∧
    ({ id := strL "abcdefgh9999", title := some (strL "New"), content := none,
       dueDate := none, priority := some 5, tags := none,
       reminders := none } : UpdatePayload).dueDate =
      (if truthy none then none else none) ∧
    ({ id := strL "abcdefgh9999", title := some (strL "New"), content := none,
       dueDate := none, priority := some 5, tags := none,
       reminders := none } : UpdatePayload).priority.isSome =
      truthy (some (strL "high")) ∧
    ({ id := strL "abcdefgh9999", title := some (strL "New"), content := none,
       dueDate := none, priority := some 5, tags := none,
       reminders := none } : UpdatePayload).tags =
      (if tagsTruthy none then
        some (tagsValue ((none : Option TagsInput).getD (TagsInput.arr []))) else none) ∧
    ({ id := strL "abcdefgh9999", title := some (strL "New"), content := none,
       dueDate := none, priority := some 5, tags := none,
       reminders := none } : UpdatePayload).reminders.isSome = truthy none :=
  falsy_options_omitted.1 { projects := [], data := fun _ => none }
    (strL "abcdefgh9999")
    { title := some (strL "New"), content := some [], dueDate := none,
      priority := some (strL "high"), tags := none, reminder := none }
    _ (by decide)

end TickTickCLI
